import Mathlib

/-!
Verification of the camera-path, placement, settling and visibility
post-processing logic of the two scene-generation scripts
(`challenges/multicapture/run.py` and `challenges/gso/run.py`).

Pure fragments of the scripts are embedded as executable Lean functions;
the camera keyframing side effects are embedded as an explicit state
machine (`Cam`) recording the committed keyframes and the insertion
events.  Library functions of the surrounding toolkit that are not part
of the two script files (`look_at`, `compute_visibility`,
`adjust_segmentation_idxs`, `get_instance_info`) are modelled from the
specification text; each such definition says so in its doc comment.
-/

/-- 3D vectors, componentwise. -/
abbrev Vec3 : Type := ℝ × ℝ × ℝ

/-- Componentwise vector subtraction (numpy broadcasting of `-`). -/
noncomputable def vsub (a b : Vec3) : Vec3 := (a.1 - b.1, a.2.1 - b.2.1, a.2.2 - b.2.2)

/-- Componentwise scaling `xyz * radius` (numpy scalar broadcast). -/
noncomputable def vscale (v : Vec3) (r : ℝ) : Vec3 := (v.1 * r, v.2.1 * r, v.2.2 * r)

/-- Modelled from the spec: the orientation produced by `look_at` (the
quaternion math lives in the kubric library, outside the two script
files).  The spec states the orientation is derived from the camera
position and the fixed look-at target, so an orientation value is
represented by exactly that derivation data. -/
structure LookAtQuat where
  position : Vec3
  target : Vec3

/-- Camera state: current position and orientation, the committed
position/quaternion keyframes (frame index to value; `keyframe_insert`
at an existing frame overwrites), and the log of insertion events. -/
structure Cam where
  pos : Vec3
  quat : LookAtQuat
  posKeys : ℤ → Option Vec3
  quatKeys : ℤ → Option LookAtQuat
  posEvents : List ℤ
  quatEvents : List ℤ

/-- The fresh camera created by `kb.PerspectiveCamera(...)`: no
keyframes committed yet. -/
def Cam.start : Cam where
  pos := (0, 0, 0)
  quat := ⟨(0, 0, 0), (0, 0, 0)⟩
  posKeys := fun _ => none
  quatKeys := fun _ => none
  posEvents := []
  quatEvents := []

/-- One iteration of a camera loop body, common to all four loops in the
scripts: set `camera.position`, call `camera.look_at((0,0,0))`, then
`keyframe_insert("position", frame)` and
`keyframe_insert("quaternion", frame)`. -/
def camStep (posOf : ℤ → Vec3) (c : Cam) (f : ℤ) : Cam :=
  let c1 : Cam := { c with pos := posOf f }
  let c2 : Cam := { c1 with quat := ⟨c1.pos, (0, 0, 0)⟩ }
  let c3 : Cam := { c2 with posKeys := Function.update c2.posKeys f (some c2.pos),
                            posEvents := c2.posEvents ++ [f] }
  { c3 with quatKeys := Function.update c3.quatKeys f (some c3.quat),
            quatEvents := c3.quatEvents ++ [f] }

/-- A whole camera loop: fold the body over the frame list. -/
def camLoop (posOf : ℤ → Vec3) (frames : List ℤ) (c : Cam) : Cam :=
  frames.foldl (camStep posOf) c

/-- Python `range(a, b)` over the integers: `n` consecutive integers
starting at `a`. -/
def intRange (a : ℤ) : ℕ → List ℤ
  | 0 => []
  | n + 1 => a :: intRange (a + 1) n

/-- The padded frame range `range(FLAGS.frame_start - 1, FLAGS.frame_end + 2)`
of the multicapture script, as a list of integer frame indices. -/
def paddedFrames (s e : ℤ) : List ℤ :=
  intRange (s - 1) (e + 2 - (s - 1)).toNat

/-- `theta_curr = theta + (frame - FLAGS.frame_start + 1) * 2 * np.pi / num_frames`
with `num_frames = FLAGS.frame_end - FLAGS.frame_start + 1`. -/
noncomputable def thetaCurr (θ : ℝ) (s e : ℤ) (f : ℤ) : ℝ :=
  θ + ((f : ℝ) - (s : ℝ) + 1) * 2 * Real.pi / ((e : ℝ) - (s : ℝ) + 1)

/-- The claim formula for the linear-orbit azimuth, written from the
spec sentence: θ(f) = θ₀ + (f − start) · 2π / num_frames.  Kept separate
from `thetaCurr` (which is the code formula) for comparison. -/
noncomputable def thetaSpecClaim (θ : ℝ) (s e : ℤ) (f : ℤ) : ℝ :=
  θ + ((f : ℝ) - (s : ℝ)) * 2 * Real.pi / ((e : ℝ) - (s : ℝ) + 1)

/-- The unit direction `xyz_curr` of the linear-orbit camera:
`(cos θ · sin φ, sin θ · sin φ, cos φ)`. -/
noncomputable def sphericalDir (θ φ : ℝ) : Vec3 :=
  (Real.cos θ * Real.sin φ, Real.sin θ * Real.sin φ, Real.cos φ)

/-- Per-frame camera position of the multicapture train loop:
`xyz_curr * radius` with `xyz_curr = sphericalDir (thetaCurr ...) φ`. -/
noncomputable def trainPosOf (θ φ r : ℝ) (s e : ℤ) (f : ℤ) : Vec3 :=
  vscale (sphericalDir (thetaCurr θ s e f) φ) r

/-- The multicapture train camera loop (lines 130–145): one `camStep`
per frame of the padded range, starting from a fresh camera. -/
noncomputable def trainCameraLoop (θ φ r : ℝ) (s e : ℤ) : Cam :=
  camLoop (trainPosOf θ φ r s e) (paddedFrames s e) Cam.start

/-- The poses the train loop keyframes, as (frame, azimuth, elevation,
radius) tuples — the spherical parameters fed to `sphericalDir`. -/
noncomputable def trainPoses (θ φ r : ℝ) (s e : ℤ) : List (ℤ × ℝ × ℝ × ℝ) :=
  (paddedFrames s e).map (fun f => (f, thetaCurr θ s e f, φ, r))

-- Basic lemmas about the camera machine.

theorem camLoop_posEvents (p : ℤ → Vec3) (l : List ℤ) (c : Cam) :
    (camLoop p l c).posEvents = c.posEvents ++ l := by
  induction l generalizing c with
  | nil => simp [camLoop]
  | cons a t ih =>
    simp only [camLoop, List.foldl_cons]
    rw [show List.foldl (camStep p) (camStep p c a) t = camLoop p t (camStep p c a) from rfl]
    rw [ih]
    simp [camStep]

theorem camLoop_quatEvents (p : ℤ → Vec3) (l : List ℤ) (c : Cam) :
    (camLoop p l c).quatEvents = c.quatEvents ++ l := by
  induction l generalizing c with
  | nil => simp [camLoop]
  | cons a t ih =>
    simp only [camLoop, List.foldl_cons]
    rw [show List.foldl (camStep p) (camStep p c a) t = camLoop p t (camStep p c a) from rfl]
    rw [ih]
    simp [camStep]

theorem camLoop_posKeys_not_mem (p : ℤ → Vec3) (l : List ℤ) (c : Cam) (f : ℤ)
    (hf : f ∉ l) : (camLoop p l c).posKeys f = c.posKeys f := by
  induction l generalizing c with
  | nil => rfl
  | cons a t ih =>
    simp only [List.mem_cons, not_or] at hf
    simp only [camLoop, List.foldl_cons]
    rw [show List.foldl (camStep p) (camStep p c a) t = camLoop p t (camStep p c a) from rfl]
    rw [ih _ hf.2]
    simp [camStep, Function.update_noteq hf.1]

theorem camLoop_quatKeys_not_mem (p : ℤ → Vec3) (l : List ℤ) (c : Cam) (f : ℤ)
    (hf : f ∉ l) : (camLoop p l c).quatKeys f = c.quatKeys f := by
  induction l generalizing c with
  | nil => rfl
  | cons a t ih =>
    simp only [List.mem_cons, not_or] at hf
    simp only [camLoop, List.foldl_cons]
    rw [show List.foldl (camStep p) (camStep p c a) t = camLoop p t (camStep p c a) from rfl]
    rw [ih _ hf.2]
    simp [camStep, Function.update_noteq hf.1]

theorem camLoop_posKeys_mem (p : ℤ → Vec3) (l : List ℤ) (c : Cam) (f : ℤ)
    (hf : f ∈ l) : (camLoop p l c).posKeys f = some (p f) := by
  induction l generalizing c with
  | nil => cases hf
  | cons a t ih =>
    simp only [camLoop, List.foldl_cons]
    rw [show List.foldl (camStep p) (camStep p c a) t = camLoop p t (camStep p c a) from rfl]
    by_cases ht : f ∈ t
    · exact ih _ ht
    · rcases List.mem_cons.mp hf with h | h
      · subst h
        rw [camLoop_posKeys_not_mem p t _ f ht]
        simp [camStep]
      · exact absurd h ht

theorem camLoop_quatKeys_mem (p : ℤ → Vec3) (l : List ℤ) (c : Cam) (f : ℤ)
    (hf : f ∈ l) : (camLoop p l c).quatKeys f = some ⟨p f, (0, 0, 0)⟩ := by
  induction l generalizing c with
  | nil => cases hf
  | cons a t ih =>
    simp only [camLoop, List.foldl_cons]
    rw [show List.foldl (camStep p) (camStep p c a) t = camLoop p t (camStep p c a) from rfl]
    by_cases ht : f ∈ t
    · exact ih _ ht
    · rcases List.mem_cons.mp hf with h | h
      · subst h
        rw [camLoop_quatKeys_not_mem p t _ f ht]
        simp [camStep]
      · exact absurd h ht

theorem mem_intRange (f a : ℤ) (n : ℕ) :
    f ∈ intRange a n ↔ a ≤ f ∧ f < a + n := by
  induction n generalizing a with
  | zero => simp [intRange]
  | succ m ih =>
    simp only [intRange, List.mem_cons, ih]
    push_cast
    omega

theorem intRange_nodup (a : ℤ) (n : ℕ) : (intRange a n).Nodup := by
  induction n generalizing a with
  | zero => simp [intRange]
  | succ m ih =>
    refine List.nodup_cons.mpr ⟨?_, ih _⟩
    rw [mem_intRange]
    omega

theorem paddedFrames_nodup (s e : ℤ) : (paddedFrames s e).Nodup :=
  intRange_nodup _ _

theorem mem_paddedFrames (s e f : ℤ) :
    f ∈ paddedFrames s e ↔ s - 1 ≤ f ∧ f ≤ e + 1 := by
  unfold paddedFrames
  rw [mem_intRange]
  omega

-- ---------------------------------------------------------------------------
-- Test-camera loops of the multicapture script (lines 281–301)
-- ---------------------------------------------------------------------------

/-- Per-frame position of the first test-camera loop (lines 283–291):
a fresh random azimuth each frame (`azOf` models the per-frame
`rng.uniform(0, 2*np.pi)` draws), the fixed elevation `phi`, and the
direction scaled by the orbit radius. -/
noncomputable def testRandomPosOf (azOf : ℤ → ℝ) (φ r : ℝ) (f : ℤ) : Vec3 :=
  vscale (sphericalDir (azOf f) φ) r

/-- The complete test-camera keyframing (lines 281–301): the
random-azimuth loop over the padded range, then the
half-sphere-shell-sampling loop over the same range (`shellOf` models
the per-frame `kb.sample_point_in_half_sphere_shell` draws), starting
from the fresh camera created on line 279. -/
noncomputable def testCameraLoops (azOf : ℤ → ℝ) (φ r : ℝ) (shellOf : ℤ → Vec3)
    (s e : ℤ) : Cam :=
  camLoop shellOf (paddedFrames s e)
    (camLoop (testRandomPosOf azOf φ r) (paddedFrames s e) Cam.start)

-- ---------------------------------------------------------------------------
-- gso script camera (`set_cameras`, lines 48–58)
-- ---------------------------------------------------------------------------

/-- The gso `set_cameras` frame list `range(1, 23)`. -/
def gsoFrames : List ℤ := intRange 1 22

/-- gso per-frame camera position `all_frames[frame_idx - 1]`, where
`allFrames` is the 22-entry concatenation of the 16 syncdreamer
positions (read from a pickle file, modelled as a parameter) and the 6
zero123pp positions. -/
def gsoPosOf (allFrames : List Vec3) (f : ℤ) : Vec3 :=
  allFrames.getD (f - 1).toNat (0, 0, 0)

/-- The gso `set_cameras` loop: one `camStep` per frame in `range(1, 23)`. -/
def gsoSetCameras (allFrames : List Vec3) : Cam :=
  camLoop (gsoPosOf allFrames) gsoFrames Cam.start

-- ---------------------------------------------------------------------------
-- Orbit radius sampling (line 126)
-- ---------------------------------------------------------------------------

/-- `radius = rng.uniform(min_radius**3, max_radius**3) ** (1/3.)`:
the cube root of the uniform draw `u`. -/
noncomputable def sampleRadius (u : ℝ) : ℝ := u ^ ((1 : ℝ) / 3)

-- ---------------------------------------------------------------------------
-- Dynamic-object velocity (lines 32 and 210–211)
-- ---------------------------------------------------------------------------

/-- `VELOCITY_RANGE = [(-4., -4., 0.), (4., 4., 0.)]`, lower corner. -/
noncomputable def velocityRangeLo : Vec3 := (-4, -4, 0)

/-- `VELOCITY_RANGE = [(-4., -4., 0.), (4., 4., 0.)]`, upper corner. -/
noncomputable def velocityRangeHi : Vec3 := (4, 4, 0)

/-- Componentwise box membership: what `rng.uniform(lo, hi)` guarantees
about its sample. -/
def inBox (lo hi v : Vec3) : Prop :=
  lo.1 ≤ v.1 ∧ v.1 ≤ hi.1 ∧ lo.2.1 ≤ v.2.1 ∧ v.2.1 ≤ hi.2.1 ∧
    lo.2.2 ≤ v.2.2 ∧ v.2.2 ≤ hi.2.2

/-- `obj.velocity = rng.uniform(*VELOCITY_RANGE) - [obj.position[0], obj.position[1], 0]`:
the sampled vector minus the horizontal part of the placed position. -/
noncomputable def dynVelocity (sample pos : Vec3) : Vec3 :=
  vsub sample (pos.1, pos.2.1, 0)

-- ---------------------------------------------------------------------------
-- Settling-phase reset (lines 185–193)
-- ---------------------------------------------------------------------------

/-- A scene foreground object as the reset loop sees it: whether it
exposes a `velocity` attribute (`hasattr(obj, "velocity")`), and its
velocity / friction / restitution. -/
structure SceneObj where
  hasVelocity : Bool
  velocity : Vec3
  friction : ℝ
  restitution : ℝ

/-- The reset-loop body (lines 185–189): objects exposing a velocity get
velocity `(0, 0, 0)`, friction `0.5` and restitution `0.5`; others are
untouched. -/
noncomputable def resetObj (o : SceneObj) : SceneObj :=
  if o.hasVelocity then
    { o with velocity := (0, 0, 0), friction := 0.5, restitution := 0.5 }
  else o

/-- The ground/backdrop dome's material state. -/
structure Dome where
  friction : ℝ
  restitution : ℝ

/-- The whole Resetting transition (lines 185–193): reset every
foreground object, then set the dome's friction and restitution to the
`--floor_friction` / `--floor_restitution` flags. -/
noncomputable def resetScene (objs : List SceneObj) (floorFriction floorRestitution : ℝ) :
    List SceneObj × Dome :=
  (objs.map resetObj, ⟨floorFriction, floorRestitution⟩)

-- ---------------------------------------------------------------------------
-- Visibility postprocessor (lines 239–251)
-- ---------------------------------------------------------------------------

/-- Modelled from the spec: `kb.compute_visibility` (kubric library)
computes, per object index, the count of pixels labelled with that
index in each frame.  Frames are lists of pixel labels; foreground
objects carry indices 1..k and the background is 0. -/
def visibility (frames : List (List ℕ)) (i : ℕ) : List ℕ :=
  frames.map (fun fr => fr.count i)

/-- `np.sum(asset.metadata["visibility"])`, the sort key. -/
def aggregateVisibility (frames : List (List ℕ)) (i : ℕ) : ℕ :=
  (visibility frames i).sum

/-- `np.max(asset.metadata["visibility"])` (0 when there are no frames). -/
def maxVisibility (frames : List (List ℕ)) (i : ℕ) : ℕ :=
  (visibility frames i).foldr max 0

/-- The foreground object indices 1..k in scene-insertion order. -/
def foregroundIdxs (k : ℕ) : List ℕ := (List.range k).map (fun i => i + 1)

/-- `visible_foreground_assets` before sorting (lines 240–241): the
objects with `np.max(metadata["visibility"]) > 0`, in scene order. -/
def visibleIdxs (frames : List (List ℕ)) (k : ℕ) : List ℕ :=
  (foregroundIdxs k).filter (fun i => decide (0 < maxVisibility frames i))

/-- `sorted(visible_foreground_assets, key=sum(visibility), reverse=True)`
(lines 242–245).  Python's `sorted` is stable; a stable descending sort
is insertion sort under the "greater-or-equal total goes first"
relation. -/
def sortedVisible (frames : List (List ℕ)) (k : ℕ) : List ℕ :=
  List.insertionSort
    (fun a b => aggregateVisibility frames b ≤ aggregateVisibility frames a)
    (visibleIdxs frames k)

/-- Modelled from the spec: `kb.adjust_segmentation_idxs` (kubric
library) maps the retained object of rank j (0-based) in the sorted
list to the new index j+1 and every other index to the background
sentinel 0. -/
def newIndex (sorted : List ℕ) (p : ℕ) : ℕ :=
  if p ∈ sorted then sorted.indexOf p + 1 else 0

/-- Rewriting every pixel of every frame through the remap
(lines 247–250). -/
def adjustSegmentation (frames : List (List ℕ)) (sorted : List ℕ) : List (List ℕ) :=
  frames.map (fun fr => fr.map (newIndex sorted))

/-- `scene.metadata["num_instances"] = len(visible_foreground_assets)`
(line 251). -/
def numInstances (frames : List (List ℕ)) (k : ℕ) : ℕ :=
  (sortedVisible frames k).length

/-- Modelled from the spec: `kb.get_instance_info` returns one metadata
record per asset of the retained subset, in order. -/
def instanceInfos (sorted : List ℕ) : List ℕ :=
  sorted.map (fun i => i)

/-- The concrete example of the spec: one rendered frame in which
object 1 covers 50 pixels, object 2 none and object 3 120 pixels, so
the total visible-pixel sums are [50, 0, 120]. -/
def exampleFrames : List (List ℕ) :=
  [List.replicate 50 1 ++ List.replicate 120 3]

-- ---------------------------------------------------------------------------
-- gso render (lines 60–86)
-- ---------------------------------------------------------------------------

/-- A created gso object.  `ordinal` is the creation sequence number and
models Python object identity (the script binds both creations to the
same variable name but they are distinct objects). -/
structure GsoObj where
  ordinal : ℕ
  assetId : String
  scale : ℝ

/-- `np.abs(obj.aabbox).max()`: the largest absolute coordinate of the
two bounding-box corners. -/
noncomputable def maxAbs6 (bbox : Vec3 × Vec3) : ℝ :=
  max (max (max |bbox.1.1| |bbox.1.2.1|) (max |bbox.1.2.2| |bbox.2.1|))
    (max |bbox.2.2.1| |bbox.2.2.2|)

/-- `np.max(obj.bounds[1] - obj.bounds[0])`: the longest bounding-box
side, the normalizer the multicapture script uses — listed here to
contrast with `maxAbs6`, the normalizer the gso script uses. -/
noncomputable def longestSide (bbox : Vec3 × Vec3) : ℝ :=
  max (max (bbox.2.1 - bbox.1.1) (bbox.2.2.1 - bbox.1.2.1)) (bbox.2.2.2 - bbox.1.2.2)

/-- The object-creation part of gso `render` (lines 69–75): create the
selected asset at scale 1, read its bounding box, create it again at
scale `1.3 / bbox_max * 0.30`, and add only the second instance to the
scene.  Returns (creation log, scene foreground objects);
`aabbox` gives each asset's bounding box at scale 1. -/
noncomputable def gsoRender (assetIds : List String) (assetIndex : ℕ)
    (aabbox : String → Vec3 × Vec3) : List GsoObj × List GsoObj :=
  let aid := assetIds.getD assetIndex ""
  let obj1 : GsoObj := ⟨0, aid, 1⟩
  let bboxMax := maxAbs6 (aabbox aid)
  let scl := 1.3 / bboxMax * 0.30
  let obj2 : GsoObj := ⟨1, aid, scl⟩
  ([obj1, obj2], [obj2])

-- ---------------------------------------------------------------------------
-- C1: linear-orbit azimuth formula (corrected)
-- ---------------------------------------------------------------------------

/-- C1 (counterexample): at frame range [1, 24] with θ₀ = 0, elevation 1
and radius 2, the pose the claim formula θ₀ + (f − start)·2π/num_frames
predicts for frame 1 is not among the keyframed poses: the code offsets
the azimuth by one extra step of 2π/num_frames. -/
theorem C1_counterexample :
    ((1 : ℤ), thetaSpecClaim 0 1 24 1, (1 : ℝ), (2 : ℝ)) ∉ trainPoses 0 1 2 1 24 := by
  intro hmem
  obtain ⟨g, hg, heq⟩ := List.mem_map.mp hmem
  simp only [Prod.mk.injEq] at heq
  obtain ⟨hg1, h2, -⟩ := heq
  subst hg1
  unfold thetaCurr thetaSpecClaim at h2
  norm_num at h2
  exact Real.pi_ne_zero h2

/-- C1 (amended): in the linear-orbit scheme, for every frame f of the
padded range [start−1, end+1] exactly the pose with azimuth
θ₀ + (f − start + 1)·2π/num_frames is keyframed (the sampled azimuth θ₀
is used at the padding frame start−1, one step before the first
requested frame), while elevation and radius are the same constants at
every frame. -/
theorem C1_azimuth_linear (θ φ r : ℝ) (s e : ℤ) (f : ℤ)
    (hf : f ∈ paddedFrames s e) :
    (f, thetaCurr θ s e f, φ, r) ∈ trainPoses θ φ r s e ∧
    ∀ p ∈ trainPoses θ φ r s e, p.1 = f →
      p.2.1 = θ + ((f : ℝ) - (s : ℝ) + 1) * 2 * Real.pi / ((e : ℝ) - (s : ℝ) + 1) ∧
      p.2.2.1 = φ ∧ p.2.2.2 = r := by
  constructor
  · exact List.mem_map.mpr ⟨f, hf, rfl⟩
  · intro p hp hpf
    obtain ⟨g, _, rfl⟩ := List.mem_map.mp hp
    have hgf : g = f := hpf
    subst hgf
    exact ⟨rfl, rfl, rfl⟩

/-- C1 witness: the amended theorem at θ₀ = 0, φ = 1, r = 2, frame
range [1, 24], frame 1. -/
theorem C1_witness :
    ((1 : ℤ), thetaCurr 0 1 24 1, (1 : ℝ), (2 : ℝ)) ∈ trainPoses 0 1 2 1 24 ∧
    ∀ p ∈ trainPoses 0 1 2 1 24, p.1 = 1 →
      p.2.1 = 0 + (((1 : ℤ) : ℝ) - ((1 : ℤ) : ℝ) + 1) * 2 * Real.pi /
        (((24 : ℤ) : ℝ) - ((1 : ℤ) : ℝ) + 1) ∧
      p.2.2.1 = 1 ∧ p.2.2.2 = 2 :=
  C1_azimuth_linear 0 1 2 1 24 1 (by decide)

-- ---------------------------------------------------------------------------
-- C3: state after the Resetting transition
-- ---------------------------------------------------------------------------

/-- C3: after the Resetting transition every foreground object that
exposes a velocity attribute has velocity (0,0,0), friction 0.5 and
restitution 0.5, whatever its previous values, and the dome carries the
configured floor friction and restitution. -/
theorem C3_reset_state (objs : List SceneObj) (ff fr : ℝ) (o : SceneObj)
    (ho : o ∈ (resetScene objs ff fr).1) (hv : o.hasVelocity = true) :
    o.velocity = (0, 0, 0) ∧ o.friction = 0.5 ∧ o.restitution = 0.5 ∧
    (resetScene objs ff fr).2.friction = ff ∧
    (resetScene objs ff fr).2.restitution = fr := by
  simp only [resetScene] at ho ⊢
  obtain ⟨o0, _, rfl⟩ := List.mem_map.mp ho
  by_cases h : o0.hasVelocity = true
  · simp [resetObj, h]
  · exfalso
    simp [resetObj, h] at hv

/-- C3 witness: a one-object scene, the object entering the reset with
velocity (1,2,3), friction 1 and restitution 0 and exposing a velocity
attribute, with floor flags 0.3 and 0.5. -/
theorem C3_witness :
    (resetObj ⟨true, (1, 2, 3), 1, 0⟩).velocity = (0, 0, 0) ∧
    (resetObj ⟨true, (1, 2, 3), 1, 0⟩).friction = 0.5 ∧
    (resetObj ⟨true, (1, 2, 3), 1, 0⟩).restitution = 0.5 ∧
    (resetScene [⟨true, (1, 2, 3), 1, 0⟩] 0.3 0.5).2.friction = 0.3 ∧
    (resetScene [⟨true, (1, 2, 3), 1, 0⟩] 0.3 0.5).2.restitution = 0.5 :=
  C3_reset_state [⟨true, (1, 2, 3), 1, 0⟩] 0.3 0.5 (resetObj ⟨true, (1, 2, 3), 1, 0⟩)
    (by simp [resetScene]) (by simp [resetObj])

-- ---------------------------------------------------------------------------
-- C5: dynamic-object initial velocity
-- ---------------------------------------------------------------------------

/-- C5: the initial velocity of a dynamic object is the sampled vector
minus (x, y, 0) built from its placed horizontal position, and — the
velocity range having zero z-extent — its z-component is 0. -/
theorem C5_dynamic_velocity (v p : Vec3)
    (hv : inBox velocityRangeLo velocityRangeHi v) :
    dynVelocity v p = vsub v (p.1, p.2.1, 0) ∧ (dynVelocity v p).2.2 = 0 := by
  refine ⟨rfl, ?_⟩
  obtain ⟨_, _, _, _, h5, h6⟩ := hv
  have hz : v.2.2 = 0 :=
    le_antisymm (by simpa [velocityRangeHi] using h6) (by simpa [velocityRangeLo] using h5)
  show v.2.2 - 0 = 0
  rw [hz, sub_zero]

/-- C5 witness: the sample (1, 2, 0) — inside the velocity range — and
the placed position (3, 4, 5). -/
theorem C5_witness :
    dynVelocity (1, 2, 0) (3, 4, 5) = vsub (1, 2, 0) (3, 4, 0) ∧
    (dynVelocity (1, 2, 0) (3, 4, 5)).2.2 = 0 :=
  C5_dynamic_velocity (1, 2, 0) (3, 4, 5)
    (by refine ⟨?_, ?_, ?_, ?_, ?_, ?_⟩ <;> norm_num [velocityRangeLo, velocityRangeHi])

-- ---------------------------------------------------------------------------
-- C6: volumetric radius sampling
-- ---------------------------------------------------------------------------

/-- C6: the orbit radius is the cube root of the value drawn uniformly
from [min_radius³, max_radius³] — its cube recovers the draw — and
whenever 0 ≤ min_radius ≤ max_radius the radius lies in
[min_radius, max_radius]. -/
theorem C6_radius_bounds (rmin rmax u : ℝ) (h0 : 0 ≤ rmin) (h1 : rmin ≤ rmax)
    (h2 : rmin ^ 3 ≤ u) (h3 : u ≤ rmax ^ 3) :
    rmin ≤ sampleRadius u ∧ sampleRadius u ≤ rmax ∧ sampleRadius u ^ 3 = u := by
  have hu : (0 : ℝ) ≤ u := le_trans (by positivity) h2
  have h0' : (0 : ℝ) ≤ rmax := le_trans h0 h1
  have hinv : (((3 : ℕ) : ℝ))⁻¹ = (1 : ℝ) / 3 := by norm_num
  have hmin : (rmin ^ (3 : ℕ)) ^ ((1 : ℝ) / 3) = rmin := by
    rw [← hinv]
    exact Real.pow_rpow_inv_natCast h0 (by norm_num)
  have hmax : (rmax ^ (3 : ℕ)) ^ ((1 : ℝ) / 3) = rmax := by
    rw [← hinv]
    exact Real.pow_rpow_inv_natCast h0' (by norm_num)
  refine ⟨?_, ?_, ?_⟩
  · calc rmin = (rmin ^ 3) ^ ((1 : ℝ) / 3) := hmin.symm
      _ ≤ u ^ ((1 : ℝ) / 3) := Real.rpow_le_rpow (by positivity) h2 (by norm_num)
  · calc sampleRadius u = u ^ ((1 : ℝ) / 3) := rfl
      _ ≤ (rmax ^ 3) ^ ((1 : ℝ) / 3) := Real.rpow_le_rpow hu h3 (by norm_num)
      _ = rmax := hmax
  · show (u ^ ((1 : ℝ) / 3)) ^ (3 : ℕ) = u
    rw [← hinv]
    exact Real.rpow_inv_natCast_pow hu (by norm_num)

/-- C6 witness: min_radius 15, max_radius 20 (the script defaults) and
the draw u = 3375 = 15³. -/
theorem C6_witness :
    (15 : ℝ) ≤ sampleRadius 3375 ∧ sampleRadius 3375 ≤ 20 ∧
    sampleRadius (3375 : ℝ) ^ 3 = 3375 :=
  C6_radius_bounds 15 20 3375 (by norm_num) (by norm_num) (by norm_num) (by norm_num)

-- ---------------------------------------------------------------------------
-- C7: azimuth monotonicity and one revolution over the span
-- ---------------------------------------------------------------------------

/-- C7: the linear-orbit azimuth is strictly increasing in the frame
index, and the azimuth difference between the last and the first
requested frame is 2π·(num_frames − 1)/num_frames. -/
theorem C7_azimuth_revolution (θ : ℝ) (s e : ℤ) (hse : s ≤ e) :
    (∀ f g : ℤ, f < g → thetaCurr θ s e f < thetaCurr θ s e g) ∧
    thetaCurr θ s e e - thetaCurr θ s e s =
      2 * Real.pi * ((((e : ℝ) - (s : ℝ) + 1)) - 1) / ((e : ℝ) - (s : ℝ) + 1) := by
  have hse' : (s : ℝ) ≤ (e : ℝ) := by exact_mod_cast hse
  have hn : (0 : ℝ) < (e : ℝ) - (s : ℝ) + 1 := by linarith
  constructor
  · intro f g hfg
    have hfg' : (f : ℝ) < (g : ℝ) := by exact_mod_cast hfg
    unfold thetaCurr
    have hlt : ((f : ℝ) - (s : ℝ) + 1) * 2 * Real.pi <
        ((g : ℝ) - (s : ℝ) + 1) * 2 * Real.pi := by
      nlinarith [Real.pi_pos]
    have hdiv := (div_lt_div_iff_of_pos_right hn).mpr hlt
    linarith
  · unfold thetaCurr
    field_simp
    ring

/-- C7 witness: frame range [1, 2], θ₀ = 0, frames 1 < 2. -/
theorem C7_witness :
    thetaCurr 0 1 2 1 < thetaCurr 0 1 2 2 ∧
    thetaCurr 0 1 2 2 - thetaCurr 0 1 2 1 =
      2 * Real.pi * (((((2 : ℤ) : ℝ) - ((1 : ℤ) : ℝ) + 1)) - 1) /
        (((2 : ℤ) : ℝ) - ((1 : ℤ) : ℝ) + 1) :=
  ⟨(C7_azimuth_revolution 0 1 2 (by decide)).1 1 2 (by decide),
   (C7_azimuth_revolution 0 1 2 (by decide)).2⟩

-- ---------------------------------------------------------------------------
-- C4: one committed pose per padded frame (corrected)
-- ---------------------------------------------------------------------------

/-- C4 (counterexample): the gso script's frame range is [1, 22], so the
claim demands a pose at padded frame 0; but `set_cameras` loops over
`range(1, 23)` only, and after it runs no position keyframe exists at
frame 0. -/
theorem C4_counterexample :
    (0 : ℤ) ∈ paddedFrames 1 22 ∧
    (gsoSetCameras (List.replicate 22 ((0 : ℝ), (0 : ℝ), (0 : ℝ)))).posKeys 0 = none := by
  refine ⟨by decide, ?_⟩
  unfold gsoSetCameras
  rw [camLoop_posKeys_not_mem _ _ _ _ (by decide)]
  rfl

/-- C4 (amended): the multicapture Camera Path Generator commits exactly
one position and one quaternion keyframe per frame of the padded range
[start−1, end+1], the quaternion derived by facing the origin; the gso
`set_cameras` does the same but over the unpadded frame range [1, 22]. -/
theorem C4_one_pose_per_frame (θ φ r : ℝ) (s e : ℤ) (allFrames : List Vec3)
    (f g : ℤ) (hf : f ∈ paddedFrames s e) (hg : g ∈ gsoFrames) :
    (trainCameraLoop θ φ r s e).posKeys f = some (trainPosOf θ φ r s e f) ∧
    (trainCameraLoop θ φ r s e).quatKeys f = some ⟨trainPosOf θ φ r s e f, (0, 0, 0)⟩ ∧
    (trainCameraLoop θ φ r s e).posEvents.count f = 1 ∧
    (trainCameraLoop θ φ r s e).quatEvents.count f = 1 ∧
    (gsoSetCameras allFrames).posKeys g = some (gsoPosOf allFrames g) ∧
    (gsoSetCameras allFrames).quatKeys g = some ⟨gsoPosOf allFrames g, (0, 0, 0)⟩ ∧
    (gsoSetCameras allFrames).posEvents.count g = 1 ∧
    (gsoSetCameras allFrames).quatEvents.count g = 1 := by
  unfold trainCameraLoop gsoSetCameras
  have h1 : List.count f (paddedFrames s e) = 1 :=
    List.count_eq_one_of_mem (paddedFrames_nodup s e) hf
  have h2 : List.count g gsoFrames = 1 :=
    List.count_eq_one_of_mem (intRange_nodup 1 22) hg
  refine ⟨camLoop_posKeys_mem _ _ _ _ hf, camLoop_quatKeys_mem _ _ _ _ hf, ?_, ?_,
    camLoop_posKeys_mem _ _ _ _ hg, camLoop_quatKeys_mem _ _ _ _ hg, ?_, ?_⟩
  · rw [camLoop_posEvents]
    simp [Cam.start, h1]
  · rw [camLoop_quatEvents]
    simp [Cam.start, h1]
  · rw [camLoop_posEvents]
    simp [Cam.start, h2]
  · rw [camLoop_quatEvents]
    simp [Cam.start, h2]

/-- C4 witness: the amended theorem at θ₀ = 0, φ = 1, r = 2, frame
range [1, 24], frame 1, and a 22-entry gso position list, gso frame 1. -/
theorem C4_witness :
    (trainCameraLoop 0 1 2 1 24).posKeys 1 = some (trainPosOf 0 1 2 1 24 1) ∧
    (trainCameraLoop 0 1 2 1 24).quatKeys 1 = some ⟨trainPosOf 0 1 2 1 24 1, (0, 0, 0)⟩ ∧
    (trainCameraLoop 0 1 2 1 24).posEvents.count 1 = 1 ∧
    (trainCameraLoop 0 1 2 1 24).quatEvents.count 1 = 1 ∧
    (gsoSetCameras (List.replicate 22 ((0 : ℝ), (0 : ℝ), (0 : ℝ)))).posKeys 1 =
      some (gsoPosOf (List.replicate 22 ((0 : ℝ), (0 : ℝ), (0 : ℝ))) 1) ∧
    (gsoSetCameras (List.replicate 22 ((0 : ℝ), (0 : ℝ), (0 : ℝ)))).quatKeys 1 =
      some ⟨gsoPosOf (List.replicate 22 ((0 : ℝ), (0 : ℝ), (0 : ℝ))) 1, (0, 0, 0)⟩ ∧
    (gsoSetCameras (List.replicate 22 ((0 : ℝ), (0 : ℝ), (0 : ℝ)))).posEvents.count 1 = 1 ∧
    (gsoSetCameras (List.replicate 22 ((0 : ℝ), (0 : ℝ), (0 : ℝ)))).quatEvents.count 1 = 1 :=
  C4_one_pose_per_frame 0 1 2 1 24 (List.replicate 22 ((0 : ℝ), (0 : ℝ), (0 : ℝ))) 1 1
    (by decide) (by decide)

-- ---------------------------------------------------------------------------
-- C9: the test camera keyframes every padded frame twice
-- ---------------------------------------------------------------------------

/-- C9: each frame of the padded range receives position and quaternion
keyframes twice — once from the random-azimuth loop and once from the
half-sphere-shell loop — and the final committed pose at every frame is
the half-sphere-shell sample, so no random-azimuth pose survives. -/
theorem C9_test_camera_overwrite (azOf : ℤ → ℝ) (φ r : ℝ) (shellOf : ℤ → Vec3)
    (s e : ℤ) (f : ℤ) (hf : f ∈ paddedFrames s e) :
    (testCameraLoops azOf φ r shellOf s e).posKeys f = some (shellOf f) ∧
    (testCameraLoops azOf φ r shellOf s e).quatKeys f = some ⟨shellOf f, (0, 0, 0)⟩ ∧
    (testCameraLoops azOf φ r shellOf s e).posEvents.count f = 2 ∧
    (testCameraLoops azOf φ r shellOf s e).quatEvents.count f = 2 := by
  unfold testCameraLoops
  have h1 : List.count f (paddedFrames s e) = 1 :=
    List.count_eq_one_of_mem (paddedFrames_nodup s e) hf
  refine ⟨camLoop_posKeys_mem _ _ _ _ hf, camLoop_quatKeys_mem _ _ _ _ hf, ?_, ?_⟩
  · rw [camLoop_posEvents, camLoop_posEvents]
    simp [Cam.start, List.count_append, h1]
  · rw [camLoop_quatEvents, camLoop_quatEvents]
    simp [Cam.start, List.count_append, h1]

/-- C9 witness: frame range [1, 2], constant sampling functions, frame 1. -/
theorem C9_witness :
    (testCameraLoops (fun _ => 0) 0 1 (fun _ => (1, 1, 1)) 1 2).posKeys 1 =
      some ((1 : ℝ), (1 : ℝ), (1 : ℝ)) ∧
    (testCameraLoops (fun _ => 0) 0 1 (fun _ => (1, 1, 1)) 1 2).quatKeys 1 =
      some ⟨((1 : ℝ), (1 : ℝ), (1 : ℝ)), (0, 0, 0)⟩ ∧
    (testCameraLoops (fun _ => 0) 0 1 (fun _ => (1, 1, 1)) 1 2).posEvents.count 1 = 2 ∧
    (testCameraLoops (fun _ => 0) 0 1 (fun _ => (1, 1, 1)) 1 2).quatEvents.count 1 = 2 :=
  C9_test_camera_overwrite (fun _ => 0) 0 1 (fun _ => (1, 1, 1)) 1 2 1 (by decide)

-- ---------------------------------------------------------------------------
-- Helper lemmas for the visibility postprocessor
-- ---------------------------------------------------------------------------

theorem mem_foregroundIdxs (k i : ℕ) : i ∈ foregroundIdxs k ↔ 1 ≤ i ∧ i ≤ k := by
  simp only [foregroundIdxs, List.mem_map, List.mem_range]
  constructor
  · rintro ⟨j, hj, rfl⟩
    omega
  · rintro ⟨h1, h2⟩
    exact ⟨i - 1, by omega, by omega⟩

theorem maxVisibility_pos_iff (frames : List (List ℕ)) (i : ℕ) :
    0 < maxVisibility frames i ↔ ∃ fr ∈ frames, fr.count i ≠ 0 := by
  unfold maxVisibility visibility
  induction frames with
  | nil => simp
  | cons a t ih =>
    simp only [List.map_cons, List.foldr_cons]
    rw [lt_max_iff]
    simp only [List.mem_cons]
    constructor
    · rintro (h | h)
      · exact ⟨a, Or.inl rfl, Nat.pos_iff_ne_zero.mp h⟩
      · obtain ⟨fr, hfr, hne⟩ := ih.mp h
        exact ⟨fr, Or.inr hfr, hne⟩
    · rintro ⟨fr, hfr | hfr, hne⟩
      · subst hfr
        exact Or.inl (Nat.pos_iff_ne_zero.mpr hne)
      · exact Or.inr (ih.mpr ⟨fr, hfr, hne⟩)

theorem filter_key_orderedInsert (key : ℕ → ℕ) (t a : ℕ) (s : List ℕ) :
    (List.orderedInsert (fun x y => key y ≤ key x) a s).filter
        (fun x => decide (key x = t)) =
      if key a = t then a :: s.filter (fun x => decide (key x = t))
      else s.filter (fun x => decide (key x = t)) := by
  induction s with
  | nil =>
    by_cases h : key a = t <;> simp [List.orderedInsert, h]
  | cons b l ih =>
    simp only [List.orderedInsert]
    by_cases hr : key b ≤ key a
    · rw [if_pos hr]
      by_cases h : key a = t <;> simp [List.filter_cons, h]
    · rw [if_neg hr]
      by_cases hb : key b = t
      · have ha : ¬key a = t := fun ha2 => hr (le_of_eq (hb.trans ha2.symm))
        simp [List.filter_cons, hb, ha, ih]
      · by_cases h : key a = t <;> simp [List.filter_cons, hb, h, ih]

theorem filter_key_insertionSort (key : ℕ → ℕ) (t : ℕ) (l : List ℕ) :
    (List.insertionSort (fun x y => key y ≤ key x) l).filter
        (fun x => decide (key x = t)) =
      l.filter (fun x => decide (key x = t)) := by
  induction l with
  | nil => rfl
  | cons a l ih =>
    simp only [List.insertionSort]
    rw [filter_key_orderedInsert]
    by_cases h : key a = t <;> simp [List.filter_cons, h, ih]

-- ---------------------------------------------------------------------------
-- C2: the visibility postprocessor
-- ---------------------------------------------------------------------------

set_option maxRecDepth 100000 in
/-- C2: the postprocessor retains exactly the objects with a nonzero
pixel count in at least one frame; the retained list is a permutation of
the visible objects sorted by descending total pixel count, stably (for
every total value, the retained objects with that total keep their
original order); discarded indices are remapped to background 0, and the
pixel rewrite applies this remap to every pixel; on the spec's example
with sums [50, 0, 120], objects 3 and 1 are retained in this order
(object 3 → index 1, object 1 → index 2) and object 2 maps to 0. -/
theorem C2_visibility_postprocessor (frames : List (List ℕ)) (k : ℕ) :
    (sortedVisible frames k).Perm (visibleIdxs frames k) ∧
    (∀ i, i ∈ sortedVisible frames k ↔
      (1 ≤ i ∧ i ≤ k ∧ ∃ fr ∈ frames, fr.count i ≠ 0)) ∧
    List.Sorted (fun a b => aggregateVisibility frames b ≤ aggregateVisibility frames a)
      (sortedVisible frames k) ∧
    (∀ t, (sortedVisible frames k).filter
        (fun i => decide (aggregateVisibility frames i = t)) =
      (visibleIdxs frames k).filter
        (fun i => decide (aggregateVisibility frames i = t))) ∧
    (∀ p, p ∉ sortedVisible frames k → newIndex (sortedVisible frames k) p = 0) ∧
    adjustSegmentation frames (sortedVisible frames k) =
      frames.map (fun fr => fr.map (newIndex (sortedVisible frames k))) ∧
    sortedVisible exampleFrames 3 = [3, 1] ∧
    newIndex (sortedVisible exampleFrames 3) 3 = 1 ∧
    newIndex (sortedVisible exampleFrames 3) 1 = 2 ∧
    newIndex (sortedVisible exampleFrames 3) 2 = 0 ∧
    aggregateVisibility exampleFrames 1 = 50 ∧
    aggregateVisibility exampleFrames 2 = 0 ∧
    aggregateVisibility exampleFrames 3 = 120 := by
  refine ⟨List.perm_insertionSort _ _, ?_, ?_, ?_, ?_, rfl,
    by decide, by decide, by decide, by decide, by decide, by decide, by decide⟩
  · intro i
    unfold sortedVisible
    rw [(List.perm_insertionSort _ _).mem_iff]
    unfold visibleIdxs
    rw [List.mem_filter, mem_foregroundIdxs]
    simp only [decide_eq_true_eq]
    rw [maxVisibility_pos_iff]
    tauto
  · haveI ht : IsTotal ℕ
        (fun a b => aggregateVisibility frames b ≤ aggregateVisibility frames a) :=
      ⟨fun _ _ => le_total _ _⟩
    haveI htr : IsTrans ℕ
        (fun a b => aggregateVisibility frames b ≤ aggregateVisibility frames a) :=
      ⟨fun _ _ _ h1 h2 => le_trans h2 h1⟩
    exact List.sorted_insertionSort _ _
  · intro t
    exact filter_key_insertionSort (aggregateVisibility frames) t (visibleIdxs frames k)
  · intro p hp
    unfold newIndex
    rw [if_neg hp]

-- ---------------------------------------------------------------------------
-- C8: empty visible set is not an error
-- ---------------------------------------------------------------------------

/-- C8: when no foreground object has a nonzero pixel count in any
frame, the postprocessor retains nothing: the retained list is empty,
`num_instances` is 0, the per-instance metadata list is empty, and the
remap sends every pixel index appearing in the input maps to the
background sentinel 0. -/
theorem C8_no_visible_objects (frames : List (List ℕ)) (k : ℕ)
    (h : ∀ i ∈ foregroundIdxs k, ∀ fr ∈ frames, fr.count i = 0) :
    sortedVisible frames k = [] ∧ numInstances frames k = 0 ∧
    instanceInfos (sortedVisible frames k) = [] ∧
    ∀ p, (∃ fr ∈ frames, p ∈ fr) → newIndex (sortedVisible frames k) p = 0 := by
  have hvis : visibleIdxs frames k = [] := by
    unfold visibleIdxs
    rw [List.filter_eq_nil_iff]
    intro a ha
    simp only [decide_eq_true_eq]
    intro hpos
    obtain ⟨fr, hfr, hne⟩ := (maxVisibility_pos_iff frames a).mp hpos
    exact hne (h a ha fr hfr)
  have hsorted : sortedVisible frames k = [] := by
    unfold sortedVisible
    rw [hvis]
    rfl
  refine ⟨hsorted, ?_, ?_, ?_⟩
  · unfold numInstances
    rw [hsorted]
    rfl
  · rw [hsorted]
    rfl
  · intro p _
    rw [hsorted]
    unfold newIndex
    simp

/-- C8 witness: two foreground objects and frames whose pixels are only
background (0) and an out-of-range index (5). -/
theorem C8_witness :
    sortedVisible [[0, 5], [0]] 2 = [] ∧ numInstances [[0, 5], [0]] 2 = 0 ∧
    instanceInfos (sortedVisible [[0, 5], [0]] 2) = [] ∧
    ∀ p, (∃ fr ∈ [[0, 5], [0]], p ∈ fr) →
      newIndex (sortedVisible [[0, 5], [0]] 2) p = 0 :=
  C8_no_visible_objects [[0, 5], [0]] 2 (by decide)

-- ---------------------------------------------------------------------------
-- C10: the gso script creates the asset twice and keeps the second
-- ---------------------------------------------------------------------------

/-- C10: the gso render creates the selected asset twice with the same
asset id — first at scale 1 (only to read its bounding box), then at
scale 1.3 / max_abs_bbox_coordinate · 0.30 — adds only the second
instance, so the scene holds exactly one foreground object, normalized
by the maximum absolute bounding-box coordinate; the final conjunct
shows this normalizer differs from the longest bounding-box side on the
box [(-1,-1,-1), (2,1,1)]. -/
theorem C10_gso_double_create (assetIds : List String) (assetIndex : ℕ)
    (aabbox : String → Vec3 × Vec3) :
    (gsoRender assetIds assetIndex aabbox).1 =
      [⟨0, assetIds.getD assetIndex "", 1⟩,
       ⟨1, assetIds.getD assetIndex "",
         1.3 / maxAbs6 (aabbox (assetIds.getD assetIndex "")) * 0.30⟩] ∧
    (gsoRender assetIds assetIndex aabbox).2 =
      [⟨1, assetIds.getD assetIndex "",
        1.3 / maxAbs6 (aabbox (assetIds.getD assetIndex "")) * 0.30⟩] ∧
    (gsoRender assetIds assetIndex aabbox).2.length = 1 ∧
    (⟨0, assetIds.getD assetIndex "", 1⟩ : GsoObj) ∉
      (gsoRender assetIds assetIndex aabbox).2 ∧
    maxAbs6 ((-1, -1, -1), (2, 1, 1)) ≠ longestSide ((-1, -1, -1), (2, 1, 1)) := by
  refine ⟨rfl, rfl, rfl, ?_, ?_⟩
  · intro hmem
    simp only [gsoRender, List.mem_singleton] at hmem
    exact absurd (congrArg GsoObj.ordinal hmem) (by norm_num)
  · unfold maxAbs6 longestSide
    simp only [abs_neg, abs_one]
    rw [show |(2 : ℝ)| = 2 from abs_of_nonneg (by norm_num)]
    norm_num [max_def]
